import Mathlib

/-!
Verification development for the document-ingestion / retrieval (RAG) backend.

The Python sources are shallowly embedded: Python strings become `List Char`
(or `String` where the content is opaque), Python ints become `Int`, the
`while` loop of `chunk_text` becomes a fuel-indexed recursion whose
`none` result means the loop has not terminated within the given fuel,
and filesystem / third-party-library effects become explicit parameters.
Definitions come first, followed by the theorems.
-/

/-- Model of Python `str.strip()`: remove leading and trailing whitespace. -/
def pyStrip (s : List Char) : List Char :=
  ((s.dropWhile Char.isWhitespace).reverse.dropWhile Char.isWhitespace).reverse

/-- Clamp one slice endpoint the way Python slicing does: a negative index
counts from the end (floored at 0), a nonnegative index is capped at the
length. -/
def pySliceIdx (n : Nat) (i : Int) : Nat :=
  if i < 0 then ((n : Int) + i).toNat else min i.toNat n

/-- Model of the Python slice `s[i:j]`. -/
def pySlice (s : List Char) (i j : Int) : List Char :=
  (s.take (pySliceIdx s.length j)).drop (pySliceIdx s.length i)

/-- Model of Python `str.isdigit()` (ASCII fragment): nonempty and all
digits. -/
def pyIsDigit (s : List Char) : Bool :=
  !s.isEmpty && s.all Char.isDigit

/-- The `while start < text_length` loop of `chunk_text`
(src/backend/embed_content.py, lines 49-56), indexed by fuel: `none` means
the loop has not exited within `fuel` iterations.  Each iteration takes the
window `text[start : start + chunk_size]`, appends its stripped content when
that is nonempty, and advances `start` by `chunk_size - overlap`. -/
def chunkLoop (text : List Char) (chunk_size overlap : Int) : Nat → Int → Option (List (List Char))
  | 0, start => if start < (text.length : Int) then none else some []
  | fuel + 1, start =>
    if start < (text.length : Int) then
      match chunkLoop text chunk_size overlap fuel (start + (chunk_size - overlap)) with
      | none => none
      | some cs =>
        let c := pyStrip (pySlice text start (start + chunk_size))
        some (if c = [] then cs else c :: cs)
    else some []

/-- `chunk_text` of src/backend/embed_content.py: run the sliding-window loop
from `start = 0`.  `none` means the call has not returned within `fuel`
iterations of the loop (so `∀ fuel, chunk_text … = none` is non-termination). -/
def chunk_text (text : List Char) (chunk_size overlap : Int) (fuel : Nat) : Option (List (List Char)) :=
  chunkLoop text chunk_size overlap fuel 0

/-- Global retrieval state of src/backend/rag.py: the module-level
`vector_db : Optional[FAISS]`, initially `None`.  The FAISS store is
modelled by the list of chunk texts it was built from. -/
structure RagState where
  vector_db : Option (List String)

/-- The sentinel returned by `search_knowledge` when the index is unbuilt
(src/backend/rag.py line 104). -/
def notInitializedMsg : String := "知识库未初始化，请检查目录是否有文档"

instance simScoreDecRel (score : String → String → ℚ) (q : String) :
    DecidableRel (fun a b : String => score q b ≤ score q a) :=
  fun _ _ => inferInstanceAs (Decidable _)

/-- Modelled from the spec: `FAISS.similarity_search(query, k)` is an external
library call not present in the repository; per the spec contract it returns
at most `k` stored chunk texts ranked by descending similarity, ties broken
by insertion order.  The embedding backend is abstracted into the `score`
parameter; ranking is a stable insertion sort by non-increasing
`score query ·` followed by `take k`. -/
def similarity_search (score : String → String → ℚ) (db : List String) (query : String) (k : Nat) : List String :=
  (List.insertionSort (fun a b => score query b ≤ score query a) db).take k

/-- `search_knowledge` of src/backend/rag.py lines 101-107: return the
sentinel when `vector_db` is `None`, otherwise the double-newline join of the
top-`top_k` chunk texts. -/
def search_knowledge (score : String → String → ℚ) (st : RagState) (query : String) (top_k : Nat) : String :=
  match st.vector_db with
  | none => notInitializedMsg
  | some db => String.intercalate "\n\n" (similarity_search score db query top_k)

/-- `init_knowledge_base` of src/backend/rag.py lines 43-98, with the
filesystem and loaders made explicit: `dir_exists` is whether the
knowledge-base directory existed, `docs` are the loaded document texts, and
`split` models the `RecursiveCharacterTextSplitter.split_documents` plus
`FAISS.from_documents` build pipeline.  The two early `return` paths (absent
directory that is freshly created, and zero loaded documents) leave the
global `vector_db` untouched; only a fully successful build assigns it. -/
def init_knowledge_base (split : List String → List String) (dir_exists : Bool)
    (docs : List String) (st : RagState) : RagState :=
  if dir_exists = false then st
  else if docs = [] then st
  else ⟨some (split docs)⟩

/-- A langchain `Document` as built by `ExcelLoader.load`
(src/backend/rag.py lines 34-37): page content plus source-file and
sheet-name metadata. -/
structure Document where
  page_content : String
  source : String
  sheet : String
deriving DecidableEq

/-- Row-to-text conversion of src/backend/rag.py line 32: cells of a row
comma-joined, rows newline-joined. -/
def sheetText (rows : List (List String)) : String :=
  String.intercalate "\n" (rows.map fun row => String.intercalate ", " row)

/-- `ExcelLoader` of src/backend/rag.py lines 19-22. -/
structure ExcelLoader where
  file_path : String

/-- `ExcelLoader.load` (src/backend/rag.py lines 24-40).  The workbook is a
list of (sheet name, `Option` rows) pairs where `none` models
`pd.read_excel` raising for that sheet; each row is the list of its cells
already coerced to strings.  The `try` block wraps the whole `for` loop, so
the first failing sheet aborts the loop and the documents accumulated so far
are returned. -/
def ExcelLoader.load (self : ExcelLoader) : List (String × Option (List (List String))) → List Document
  | [] => []
  | (_, none) :: _ => []
  | (name, some rows) :: rest => ⟨sheetText rows, self.file_path, name⟩ :: self.load rest

/-- Three-sheet workbook whose second worksheet is unreadable. -/
def exSheets : List (String × Option (List (List String))) :=
  [("Sheet1", some [["a", "b"]]), ("Sheet2", none), ("Sheet3", some [["c", "d"]])]

/-- A text line of a PDF page with its vertical position (distance of the
line from the top of the page). -/
structure PdfLine where
  top : ℚ
  text : List Char

/-- A PDF page: its height and its text lines. -/
structure PdfPage where
  height : ℚ
  lines : List PdfLine

/-- Modelled from the spec: `pdfplumber`'s `within_bbox` + `extract_text` are
external library calls not present in the repository.  The code
(src/backend/pdf_extractor.py lines 42-50) crops to the box from
`0.1 * page_height` to `0.9 * page_height`, so the extracted lines are those
lying inside that vertical band. -/
def cropContent (p : PdfPage) : List (List Char) :=
  (p.lines.filter fun l =>
    decide (p.height * (1 / 10) ≤ l.top ∧ l.top ≤ p.height * (9 / 10))).map PdfLine.text

/-- The per-line cleanup loop of src/backend/pdf_extractor.py lines 57-69:
strip each line, skip it when empty, when purely numeric of length at most 3,
or when shorter than 3 characters; keep the stripped line otherwise. -/
def cleanLines : List (List Char) → List (List Char)
  | [] => []
  | l :: rest =>
    let s := pyStrip l
    if s = [] then cleanLines rest
    else if pyIsDigit s ∧ s.length ≤ 3 then cleanLines rest
    else if s.length < 3 then cleanLines rest
    else s :: cleanLines rest

/-- Per-page text extraction of src/backend/pdf_extractor.py lines 36-74:
crop away the header/footer bands, clean the remaining lines and, when any
survive, contribute their newline join to `all_text`; `none` means the page
contributes nothing. -/
def processPage (p : PdfPage) : Option (List Char) :=
  match cropContent p with
  | [] => none
  | ls =>
    let cleaned := cleanLines ls
    if cleaned = [] then none else some (List.intercalate ['\n'] cleaned)

/-- `full_text` of src/backend/pdf_extractor.py line 80: the double-newline
join of the per-page contributions. -/
def extract_pdf_text (pages : List PdfPage) : List Char :=
  List.intercalate ['\n', '\n'] (pages.filterMap processPage)

/-- A page holding only a running header (top band) and a footer (bottom
band). -/
def examplePage : PdfPage :=
  ⟨100, [⟨5, "Running Header".toList⟩, ⟨95, "Page 1".toList⟩]⟩

/-- Squared Euclidean norm of a vector. -/
def sqNorm (v : List ℝ) : ℝ := (v.map fun x => x * x).sum

/-- Euclidean norm, `tensor.norm(dim=-1)` of the code. -/
noncomputable def l2norm (v : List ℝ) : ℝ := Real.sqrt (sqNorm v)

/-- The normalization step `features / features.norm(dim=-1, keepdim=True)`
of src/backend/embed_content.py lines 70 and 95, in exact real arithmetic. -/
noncomputable def l2normalize (v : List ℝ) : List ℝ := v.map fun x => x / l2norm v

/-- `get_text_embedding` (src/backend/embed_content.py lines 61-79) on its
success path: the raw CLIP feature vector (opaque model output, here a
parameter) divided by its own norm.  The exception path returns `None`, not
a vector. -/
noncomputable def get_text_embedding (features : List ℝ) : List ℝ := l2normalize features

/-- `get_image_embedding` (src/backend/embed_content.py lines 82-104) on its
success path: identical normalization of the raw image feature vector. -/
noncomputable def get_image_embedding (features : List ℝ) : List ℝ := l2normalize features

theorem chunkLoop_stop (text : List Char) (chunk_size overlap : Int) (fuel : Nat) (start : Int)
    (h : ¬ start < (text.length : Int)) :
    chunkLoop text chunk_size overlap fuel start = some [] := by
  cases fuel <;> simp [chunkLoop, h]

theorem chunkLoop_no_progress (text : List Char) (chunk_size overlap : Int)
    (h : chunk_size - overlap ≤ 0) :
    ∀ fuel start, start < (text.length : Int) →
      chunkLoop text chunk_size overlap fuel start = none := by
  intro fuel
  induction fuel with
  | zero => intro start hs; simp [chunkLoop, hs]
  | succ n ih =>
    intro start hs
    have hs2 : start + (chunk_size - overlap) < (text.length : Int) := by omega
    simp [chunkLoop, hs, ih _ hs2]

theorem pyStrip_length_le (l : List Char) : (pyStrip l).length ≤ l.length := by
  unfold pyStrip
  rw [List.length_reverse]
  calc ((l.dropWhile Char.isWhitespace).reverse.dropWhile Char.isWhitespace).length
      ≤ (l.dropWhile Char.isWhitespace).reverse.length := (List.dropWhile_sublist _).length_le
    _ = (l.dropWhile Char.isWhitespace).length := List.length_reverse _
    _ ≤ l.length := (List.dropWhile_sublist _).length_le

theorem pySlice_length_le (s : List Char) (i c : Int) (hi : 0 ≤ i) (hc : 0 ≤ c) :
    ((pySlice s i (i + c)).length : Int) ≤ c := by
  have hij : ¬ i + c < 0 := by omega
  have hi2 : ¬ i < 0 := by omega
  simp only [pySlice, pySliceIdx, if_neg hij, if_neg hi2, List.length_drop, List.length_take]
  have h1 : (i + c).toNat = i.toNat + c.toNat := by omega
  omega

theorem chunkLoop_some (text : List Char) (chunk_size overlap : Int)
    (hstep : 0 < chunk_size - overlap) (hc : 0 < chunk_size) :
    ∀ (fuel : Nat) (start : Int), 0 ≤ start →
      (text.length : Int) ≤ start + (fuel : Int) * (chunk_size - overlap) →
      ∃ cs, chunkLoop text chunk_size overlap fuel start = some cs ∧
        ∀ x ∈ cs, (x.length : Int) ≤ chunk_size := by
  intro fuel
  induction fuel with
  | zero =>
    intro start h0 hlen
    refine ⟨[], ?_, by simp⟩
    exact chunkLoop_stop _ _ _ _ _ (by omega)
  | succ n ih =>
    intro start h0 hlen
    by_cases hs : start < (text.length : Int)
    · have h0' : 0 ≤ start + (chunk_size - overlap) := by omega
      have hlen' : (text.length : Int) ≤ (start + (chunk_size - overlap)) + (n : Int) * (chunk_size - overlap) := by
        have hcast : ((n + 1 : Nat) : Int) * (chunk_size - overlap) = (chunk_size - overlap) + (n : Int) * (chunk_size - overlap) := by
          push_cast
          ring
        omega
      obtain ⟨cs, hcs, hbound⟩ := ih (start + (chunk_size - overlap)) h0' hlen'
      have hchunk : ((pyStrip (pySlice text start (start + chunk_size))).length : Int) ≤ chunk_size := by
        calc ((pyStrip (pySlice text start (start + chunk_size))).length : Int)
            ≤ ((pySlice text start (start + chunk_size)).length : Int) := by
              exact_mod_cast pyStrip_length_le _
          _ ≤ chunk_size := pySlice_length_le _ _ _ h0 (by omega)
      refine ⟨if pyStrip (pySlice text start (start + chunk_size)) = [] then cs
              else pyStrip (pySlice text start (start + chunk_size)) :: cs, ?_, ?_⟩
      · simp [chunkLoop, hs, hcs]
      · intro x hx
        by_cases hemp : pyStrip (pySlice text start (start + chunk_size)) = []
        · rw [if_pos hemp] at hx; exact hbound x hx
        · rw [if_neg hemp] at hx
          rcases List.mem_cons.mp hx with h | h
          · subst h; exact hchunk
          · exact hbound x h
    · exact ⟨[], chunkLoop_stop _ _ _ _ _ hs, by simp⟩

theorem chunkLoop_mono (text : List Char) (chunk_size overlap : Int) :
    ∀ (fuel fuel2 : Nat) (start : Int) (cs : List (List Char)), fuel ≤ fuel2 →
      chunkLoop text chunk_size overlap fuel start = some cs →
      chunkLoop text chunk_size overlap fuel2 start = some cs := by
  intro fuel
  induction fuel with
  | zero =>
    intro fuel2 start cs _ h
    by_cases hs : start < (text.length : Int)
    · simp [chunkLoop, hs] at h
    · rw [chunkLoop_stop _ _ _ _ _ hs] at h
      rw [chunkLoop_stop _ _ _ _ _ hs]
      exact h
  | succ n ih =>
    intro fuel2 start cs hle h
    by_cases hs : start < (text.length : Int)
    · obtain ⟨m, rfl⟩ : ∃ m, fuel2 = m + 1 := ⟨fuel2 - 1, by omega⟩
      have hmn : n ≤ m := by omega
      simp only [chunkLoop, if_pos hs] at h ⊢
      cases hrec : chunkLoop text chunk_size overlap n (start + (chunk_size - overlap)) with
      | none => rw [hrec] at h; simp at h
      | some cs2 =>
        rw [hrec] at h
        rw [ih m _ cs2 hmn hrec]
        exact h
    · rw [chunkLoop_stop _ _ _ _ _ hs] at h
      rw [chunkLoop_stop _ _ _ _ _ hs]
      exact h

/-- C1: the claim says `chunk_text` rejects `overlap ≥ chunk_size` with an
explicit precondition check.  The code has no such check: at the concrete
failing input `chunk_text("AB", chunk_size=1, overlap=1)` the loop step
`chunk_size - overlap` is zero, `start` never advances past 0 < 2, and the
call does not return within any number of loop iterations (non-termination),
instead of signalling the violation. -/
theorem chunk_text_overlap_violation_loops_forever :
    ∀ fuel : Nat, chunk_text "AB".toList 1 1 fuel = none := by
  intro fuel
  exact chunkLoop_no_progress _ 1 1 (by norm_num) fuel 0 (by decide)

/-- C2: for chunk_size > 0, overlap < chunk_size and nonempty text,
`chunk_text` terminates (every fuel of at least `text.length` iterations
yields the same successful result) and every returned chunk has length at
most `chunk_size`; moreover each loop iteration advances the window start by
exactly `chunk_size - overlap`, and the loop stops (returning the chunks
collected so far) exactly when `start ≥ text.length`. -/
theorem chunk_text_terminates_and_bounds (text : List Char) (chunk_size overlap : Int)
    (hc : 0 < chunk_size) (ho : overlap < chunk_size) (ht : text ≠ []) :
    (∃ cs, (∀ fuel : Nat, text.length ≤ fuel → chunk_text text chunk_size overlap fuel = some cs) ∧
      ∀ x ∈ cs, (x.length : Int) ≤ chunk_size) ∧
    (∀ (fuel : Nat) (start : Int), start < (text.length : Int) →
      chunkLoop text chunk_size overlap (fuel + 1) start =
        match chunkLoop text chunk_size overlap fuel (start + (chunk_size - overlap)) with
        | none => none
        | some cs =>
          some (if pyStrip (pySlice text start (start + chunk_size)) = [] then cs
                else pyStrip (pySlice text start (start + chunk_size)) :: cs)) ∧
    (∀ (fuel : Nat) (start : Int), (text.length : Int) ≤ start →
      chunkLoop text chunk_size overlap fuel start = some []) := by
  have hstep : 0 < chunk_size - overlap := by omega
  refine ⟨?_, ?_, ?_⟩
  · have hlen : (text.length : Int) ≤ 0 + (text.length : Int) * (chunk_size - overlap) := by
      have h1 : (text.length : Int) * 1 ≤ (text.length : Int) * (chunk_size - overlap) :=
        mul_le_mul_of_nonneg_left (by omega) (by positivity)
      omega
    obtain ⟨cs, hcs, hbound⟩ := chunkLoop_some text chunk_size overlap hstep hc text.length 0 le_rfl hlen
    exact ⟨cs, fun fuel hf => chunkLoop_mono text chunk_size overlap text.length fuel 0 cs hf hcs, hbound⟩
  · intro fuel start hs
    simp only [chunkLoop, if_pos hs]
  · intro fuel start hs
    exact chunkLoop_stop _ _ _ _ _ (by omega)

/-- Witness for C2 at text "AAAAABBBBBCCCCC", chunk_size 5, overlap 2. -/
theorem chunk_text_terminates_and_bounds_witness :
    ((0 : Int) < 5 ∧ (2 : Int) < 5 ∧ "AAAAABBBBBCCCCC".toList ≠ []) ∧
    ((∃ cs, (∀ fuel : Nat, "AAAAABBBBBCCCCC".toList.length ≤ fuel →
        chunk_text "AAAAABBBBBCCCCC".toList 5 2 fuel = some cs) ∧
      ∀ x ∈ cs, (x.length : Int) ≤ 5) ∧
    (∀ (fuel : Nat) (start : Int), start < ("AAAAABBBBBCCCCC".toList.length : Int) →
      chunkLoop "AAAAABBBBBCCCCC".toList 5 2 (fuel + 1) start =
        match chunkLoop "AAAAABBBBBCCCCC".toList 5 2 fuel (start + (5 - 2)) with
        | none => none
        | some cs =>
          some (if pyStrip (pySlice "AAAAABBBBBCCCCC".toList start (start + 5)) = [] then cs
                else pyStrip (pySlice "AAAAABBBBBCCCCC".toList start (start + 5)) :: cs)) ∧
    (∀ (fuel : Nat) (start : Int), ("AAAAABBBBBCCCCC".toList.length : Int) ≤ start →
      chunkLoop "AAAAABBBBBCCCCC".toList 5 2 fuel start = some [])) :=
  ⟨⟨by norm_num, by norm_num, by decide⟩,
   chunk_text_terminates_and_bounds "AAAAABBBBBCCCCC".toList 5 2 (by norm_num) (by norm_num) (by decide)⟩

/-- C9: chunking "AAAAABBBBBCCCCC" (15 chars) with chunk_size 5 and
overlap 2 terminates within 6 loop iterations and yields exactly the
stripped windows starting at 0, 3, 6, 9, 12 — five chunks, the starts
advancing by chunk_size - overlap = 3 each step. -/
theorem chunk_text_example_windows :
    chunk_text "AAAAABBBBBCCCCC".toList 5 2 6 =
      some (([0, 3, 6, 9, 12] : List Int).map fun s =>
        pyStrip (pySlice "AAAAABBBBBCCCCC".toList s (s + 5))) ∧
    chunk_text "AAAAABBBBBCCCCC".toList 5 2 6 =
      some ["AAAAA".toList, "AABBB".toList, "BBBBC".toList, "BCCCC".toList, "CCC".toList] ∧
    ([0, 3, 6, 9, 12] : List Int).Chain' (fun a b => b = a + (5 - 2)) :=
  ⟨by decide, by decide, by norm_num [List.chain'_cons]⟩

/-- C5: for every query and every top_k, calling `search_knowledge` while the
index is unbuilt (`vector_db` is `None`) returns the fixed not-initialized
sentinel as data; the embedded function is total, so no exception reaches the
caller. -/
theorem search_knowledge_unbuilt_sentinel (score : String → String → ℚ) (q : String) (k : Nat) :
    search_knowledge score ⟨none⟩ q k = notInitializedMsg := rfl

/-- C6: when the index is built, `search_knowledge` returns the
double-newline join of at most `top_k` chunk texts drawn from the store,
ordered by non-increasing similarity score. -/
theorem search_knowledge_topk_sorted (score : String → String → ℚ) (db : List String) (q : String) (k : Nat) :
    ∃ l, search_knowledge score ⟨some db⟩ q k = String.intercalate "\n\n" l ∧
      l.length ≤ k ∧
      l.Pairwise (fun a b => score q b ≤ score q a) ∧
      ∀ x ∈ l, x ∈ db := by
  refine ⟨similarity_search score db q k, rfl, ?_, ?_, ?_⟩
  · exact List.length_take_le _ _
  · haveI : IsTotal String (fun a b : String => score q b ≤ score q a) :=
      ⟨fun a b => (le_total (score q b) (score q a)).imp id id⟩
    haveI : IsTrans String (fun a b : String => score q b ≤ score q a) :=
      ⟨fun a b c hab hbc => le_trans hbc hab⟩
    have hs := List.sorted_insertionSort (fun a b : String => score q b ≤ score q a) db
    exact hs.sublist (List.take_sublist _ _)
  · intro x hx
    have hx2 : x ∈ List.insertionSort (fun a b : String => score q b ≤ score q a) db :=
      List.mem_of_mem_take hx
    exact (List.mem_insertionSort _).mp hx2

/-- C3 counterexample: running `init_knowledge_base` with zero documents
found, starting from the never-built state, leaves the state exactly equal to
the never-built state, and `search_knowledge` answers with the same
not-initialized sentinel in both — the claimed distinguishable
successfully-built empty index does not exist. -/
theorem init_zero_docs_indistinguishable :
    init_knowledge_base id true [] ⟨none⟩ = RagState.mk none ∧
    search_knowledge (fun _ _ => 0) (init_knowledge_base id true [] ⟨none⟩) "query" 3 = notInitializedMsg ∧
    search_knowledge (fun _ _ => 0) (⟨none⟩ : RagState) "query" 3 = notInitializedMsg := by
  refine ⟨by simp [init_knowledge_base], ?_, rfl⟩
  simp only [init_knowledge_base]
  rfl

/-- C3 amended: when the scan finds zero documents, `init_knowledge_base`
returns early without assigning `vector_db`; from the never-built state the
index therefore stays unbuilt and `search_knowledge` returns the
not-initialized sentinel, indistinguishable from never having built. -/
theorem init_zero_docs_leaves_unbuilt (split : List String → List String) (docs : List String)
    (h : docs = []) :
    init_knowledge_base split true docs ⟨none⟩ = RagState.mk none ∧
    ∀ (score : String → String → ℚ) (q : String) (k : Nat),
      search_knowledge score (init_knowledge_base split true docs ⟨none⟩) q k = notInitializedMsg := by
  subst h
  exact ⟨by simp [init_knowledge_base], fun score q k => by simp [init_knowledge_base]; rfl⟩

/-- Witness for the C3 amended theorem at split = id, docs = []. -/
theorem init_zero_docs_leaves_unbuilt_witness :
    ([] : List String) = [] ∧
    (init_knowledge_base id true [] ⟨none⟩ = RagState.mk none ∧
    ∀ (score : String → String → ℚ) (q : String) (k : Nat),
      search_knowledge score (init_knowledge_base id true [] ⟨none⟩) q k = notInitializedMsg) :=
  ⟨rfl, init_zero_docs_leaves_unbuilt id [] rfl⟩

/-- C10: on both early-return paths (directory absent and freshly created, or
zero documents loaded) `init_knowledge_base` leaves the global `vector_db`
at its prior value, so an index built by an earlier run keeps answering
`search_knowledge` exactly as before; and the global is assigned (to the
freshly built store) only by the fully successful path. -/
theorem init_knowledge_base_frame (split : List String → List String) (dir_exists : Bool)
    (docs : List String) (st : RagState) (h : dir_exists = false ∨ docs = []) :
    init_knowledge_base split dir_exists docs st = st ∧
    (∀ (score : String → String → ℚ) (q : String) (k : Nat),
      search_knowledge score (init_knowledge_base split dir_exists docs st) q k =
        search_knowledge score st q k) ∧
    (∀ (docs2 : List String) (st2 : RagState), docs2 ≠ [] →
      init_knowledge_base split true docs2 st2 = ⟨some (split docs2)⟩) := by
  have hfix : init_knowledge_base split dir_exists docs st = st := by
    rcases h with h | h
    · simp [init_knowledge_base, h]
    · subst h; simp [init_knowledge_base]
  refine ⟨hfix, fun score q k => by rw [hfix], fun docs2 st2 h2 => by simp [init_knowledge_base, h2]⟩

/-- Witness for C10: a zero-document rebuild on top of a previously built
index leaves that index in place and queryable. -/
theorem init_knowledge_base_frame_witness :
    (true = false ∨ ([] : List String) = []) ∧
    (init_knowledge_base id true [] ⟨some ["doc"]⟩ = (⟨some ["doc"]⟩ : RagState) ∧
    (∀ (score : String → String → ℚ) (q : String) (k : Nat),
      search_knowledge score (init_knowledge_base id true [] ⟨some ["doc"]⟩) q k =
        search_knowledge score (⟨some ["doc"]⟩ : RagState) q k) ∧
    (∀ (docs2 : List String) (st2 : RagState), docs2 ≠ [] →
      init_knowledge_base id true docs2 st2 = ⟨some (id docs2)⟩)) :=
  ⟨Or.inr rfl, init_knowledge_base_frame id true [] ⟨some ["doc"]⟩ (Or.inr rfl)⟩

/-- C4 counterexample: a workbook whose second of three worksheets is
unreadable yields only the first worksheet's Document — one Segment, not the
two Segments the claim promises for the two readable worksheets. -/
theorem excel_unreadable_sheet_aborts :
    (ExcelLoader.mk "wb.xlsx").load exSheets = [⟨"a, b", "wb.xlsx", "Sheet1"⟩] ∧
    ¬ ((ExcelLoader.mk "wb.xlsx").load exSheets).length = 2 :=
  ⟨by decide, by decide⟩

/-- C4 amended: the `try` of `ExcelLoader.load` wraps the whole worksheet
loop, so a sheet that fails to parse aborts the loop (with one logged
warning): exactly the readable worksheets before the first failing one are
turned into Documents, and every sheet from the failure on is dropped. -/
theorem excel_load_keeps_readable_head (self : ExcelLoader) :
    ∀ sheets : List (String × Option (List (List String))),
      self.load sheets = (sheets.takeWhile fun s => s.2.isSome).map
        (fun s => ⟨sheetText (s.2.getD []), self.file_path, s.1⟩) := by
  intro sheets
  induction sheets with
  | nil => rfl
  | cons hd tl ih =>
    obtain ⟨name, rows⟩ := hd
    cases rows with
    | none => simp [ExcelLoader.load, List.takeWhile]
    | some r => simp [ExcelLoader.load, List.takeWhile, ih]

theorem cleanLines_eq_filter (ls : List (List Char)) :
    cleanLines ls = (ls.map pyStrip).filter
      (fun s => decide (s ≠ [] ∧ ¬(pyIsDigit s = true ∧ s.length ≤ 3) ∧ ¬(s.length < 3))) := by
  induction ls with
  | nil => rfl
  | cons l rest ih =>
    simp only [List.map_cons, List.filter_cons]
    by_cases h1 : pyStrip l = []
    · simp [cleanLines, h1, ih]
    · by_cases h2 : pyIsDigit (pyStrip l) = true ∧ (pyStrip l).length ≤ 3
      · simp [cleanLines, h1, h2, ih]
      · by_cases h3 : (pyStrip l).length < 3
        · simp [cleanLines, h1, h2, h3, ih]
        · simp [cleanLines, h1, h2, h3, ih]

/-- C7: per page, content in the top 10% and bottom 10% height bands is
discarded before extraction, and the per-line cleanup keeps exactly the
stripped lines that are nonempty, not purely numeric of length at most 3, and
not shorter than 3 characters; a page whose lines all lie in the
header/footer bands therefore contributes zero cleaned lines — nothing — to
the extracted text. -/
theorem pdf_header_footer_excluded (p : PdfPage)
    (h : ∀ l ∈ p.lines, l.top < p.height * (1 / 10) ∨ p.height * (9 / 10) < l.top) :
    processPage p = none ∧
    extract_pdf_text [p] = [] ∧
    ∀ ls, cleanLines ls = (ls.map pyStrip).filter
      (fun s => decide (s ≠ [] ∧ ¬(pyIsDigit s = true ∧ s.length ≤ 3) ∧ ¬(s.length < 3))) := by
  have hfil : p.lines.filter (fun l =>
      decide (p.height * (1 / 10) ≤ l.top ∧ l.top ≤ p.height * (9 / 10))) = [] := by
    rw [List.filter_eq_nil_iff]
    intro a ha
    simp only [decide_eq_true_eq, not_and, not_le]
    intro h2
    rcases h a ha with h1 | h1
    · exact absurd h2 (not_le.mpr h1)
    · exact h1
  have hcrop : cropContent p = [] := by
    unfold cropContent
    rw [hfil]
    rfl
  have hpp : processPage p = none := by
    simp [processPage, hcrop]
  exact ⟨hpp, by simp [extract_pdf_text, hpp, List.intercalate], cleanLines_eq_filter⟩

/-- Witness for C7 at a page of height 100 holding only a header at height 5
and a footer at height 95. -/
theorem pdf_header_footer_excluded_witness :
    (∀ l ∈ examplePage.lines,
      l.top < examplePage.height * (1 / 10) ∨ examplePage.height * (9 / 10) < l.top) ∧
    (processPage examplePage = none ∧
    extract_pdf_text [examplePage] = [] ∧
    ∀ ls, cleanLines ls = (ls.map pyStrip).filter
      (fun s => decide (s ≠ [] ∧ ¬(pyIsDigit s = true ∧ s.length ≤ 3) ∧ ¬(s.length < 3)))) :=
  ⟨by intro l hl; simp only [examplePage] at hl ⊢; fin_cases hl <;> norm_num,
   pdf_header_footer_excluded examplePage
     (by intro l hl; simp only [examplePage] at hl ⊢; fin_cases hl <;> norm_num)⟩

theorem sqNorm_nonneg (v : List ℝ) : 0 ≤ sqNorm v := by
  induction v with
  | nil => simp [sqNorm]
  | cons x rest ih => simpa [sqNorm] using add_nonneg (mul_self_nonneg x) (by simpa [sqNorm] using ih)

theorem sqNorm_map_div (v : List ℝ) (c : ℝ) : sqNorm (v.map fun x => x / c) = sqNorm v / (c * c) := by
  induction v with
  | nil => simp [sqNorm]
  | cons x rest ih =>
    simp only [List.map_cons, sqNorm, List.sum_cons] at ih ⊢
    rw [ih]
    ring

theorem l2norm_l2normalize (v : List ℝ) (h : sqNorm v ≠ 0) : l2norm (l2normalize v) = 1 := by
  have hnn : 0 ≤ sqNorm v := sqNorm_nonneg v
  have hsq : l2norm v * l2norm v = sqNorm v := Real.mul_self_sqrt hnn
  have hone : sqNorm (l2normalize v) = 1 := by
    rw [l2normalize, sqNorm_map_div, hsq, div_self h]
  rw [l2norm, hone, Real.sqrt_one]

/-- C8: in exact real arithmetic, every vector produced by the success path
of `get_text_embedding` and of `get_image_embedding` — the raw feature
vector divided by its own Euclidean norm — has Euclidean norm 1, provided
the raw feature vector is not the zero vector. -/
theorem embeddings_unit_norm (v : List ℝ) (h : sqNorm v ≠ 0) :
    l2norm (get_text_embedding v) = 1 ∧ l2norm (get_image_embedding v) = 1 :=
  ⟨l2norm_l2normalize v h, l2norm_l2normalize v h⟩

/-- Witness for C8 at the feature vector (3, 4). -/
theorem embeddings_unit_norm_witness :
    sqNorm [(3 : ℝ), 4] ≠ 0 ∧
    (l2norm (get_text_embedding [(3 : ℝ), 4]) = 1 ∧ l2norm (get_image_embedding [(3 : ℝ), 4]) = 1) :=
  ⟨by norm_num [sqNorm], embeddings_unit_norm [(3 : ℝ), 4] (by norm_num [sqNorm])⟩
